import Mathlib

/-!
Verification of the Health-chain-stellar order query service
(`backend/src/orders/orders.service.ts`) against its specification.

The service keeps an in-memory list of blood orders and offers
`findAllWithFilters` (tenant scoping, date / blood-type / status / search
filtering, active-first two-level sorting, pagination) and `updateStatus`
(in-place status update plus a WebSocket room broadcast).  The embedding
below renders that TypeScript directly: timestamps are epoch milliseconds
(`Int`, as produced by `Date.prototype.getTime`), enum-typed fields are the
runtime strings TypeScript erases to, fallible or absent values are
`Option`, and the comparator passed to `Array.prototype.sort` is modelled
together with a stable merge sort, which is what a JS engine guarantees for
a consistent comparator.
-/

namespace HealthChain

/-- `BloodBankInfo` from the order types. -/
structure BloodBank where
  id : String
  name : String
  location : String
deriving DecidableEq, Repr, Inhabited

/-- `HospitalInfo` from the order types. -/
structure Hospital where
  id : String
  name : String
  location : String
deriving DecidableEq, Repr, Inhabited

/-- `RiderInfo` from the order types. -/
structure Rider where
  id : String
  name : String
  phone : String
deriving DecidableEq, Repr, Inhabited

/-- The `Order` record.  `bloodType` and `status` keep their runtime string
representation (the TypeScript unions are erased at runtime and the service
compares them as strings); timestamps are epoch milliseconds; `rider` and
the three status timestamps are `null`-able. -/
structure Order where
  id : String
  bloodType : String
  quantity : Int
  bloodBank : BloodBank
  hospital : Hospital
  status : String
  rider : Option Rider
  placedAt : Int
  deliveredAt : Option Int
  confirmedAt : Option Int
  cancelledAt : Option Int
  createdAt : Int
  updatedAt : Int
deriving DecidableEq, Repr, Inhabited

/-- `OrderQueryParamsDto` as destructured by `findAllWithFilters`.  `none`
stands for a query parameter that is absent (`undefined`); for the string
parameters an empty string is kept distinct because the TypeScript guards
test truthiness, under which `""` is also skipped.  The two date parameters
are already-parsed epoch milliseconds. -/
structure OrderQueryParamsDto where
  hospitalId : String
  startDate : Option Int := none
  endDate : Option Int := none
  bloodTypes : Option String := none
  statuses : Option String := none
  bloodBank : Option String := none
  sortBy : Option String := none
  sortOrder : Option String := none
  page : Option Int := none
  pageSize : Option Int := none
deriving DecidableEq, Repr

/-- JS `String.prototype.split` with separator `','`. -/
def splitCharList (sep : Char) : List Char → List (List Char)
  | [] => [[]]
  | c :: rest =>
      match splitCharList sep rest with
      | [] => if c = sep then [[], []] else [[c]]
      | h :: t => if c = sep then [] :: h :: t else (c :: h) :: t

/-- JS `s.split(',')`. -/
def jsSplitComma (s : String) : List String :=
  (splitCharList ',' s.data).map String.mk

/-- JS `String.prototype.toLowerCase` (ASCII range, which is all the service
compares). -/
def jsToLower (s : String) : String :=
  String.mk (s.data.map Char.toLower)

/-- Does the list start with the given needle? -/
def startsWithList : List Char → List Char → Bool
  | [], _ => true
  | _ :: _, [] => false
  | a :: as, b :: bs => a = b && startsWithList as bs

/-- Does the needle occur contiguously in the haystack? -/
def containsList : List Char → List Char → Bool
  | needle, [] => startsWithList needle []
  | needle, c :: rest => startsWithList needle (c :: rest) || containsList needle rest

/-- JS `s.includes(sub)`. -/
def jsIncludes (s sub : String) : Bool :=
  containsList sub.data s.data

/-- JS `Array.prototype.slice` on integer indices (a negative index counts
from the end of the array). -/
def jsSlice (l : List α) (start stop : Int) : List α :=
  let len : Int := l.length
  let s := if start < 0 then max (len + start) 0 else min start len
  let e := if stop < 0 then max (len + stop) 0 else min stop len
  (l.drop s.toNat).take (e - s).toNat

/-- `Math.ceil(a / b)` for integers with a positive divisor, which is how
`findAllWithFilters` computes `totalPages` from `totalCount / pageSize`. -/
def mathCeilDiv (a b : Int) : Int :=
  -((-a).fdiv b)

/-- The `activeStatuses` array of `findAllWithFilters`. -/
def activeStatuses : List String :=
  ["pending", "confirmed", "in_transit"]

/-- An order counts as active when its status is in `activeStatuses`. -/
def isActive (o : Order) : Bool :=
  activeStatuses.contains o.status

/-- A value returned by `OrdersService.getSortValue` (typed `any` in the
source): either a string column or a number (quantity or epoch
milliseconds). -/
inductive SortValue where
  | str (s : String)
  | num (n : Int)
deriving DecidableEq, Repr

/-- Is the sort value a string? -/
def SortValue.isStr : SortValue → Bool
  | .str _ => true
  | .num _ => false

/-- JS `<` between two `getSortValue` results.  Within one query both values
come from the same column and have matching constructors; on mismatched
constructors JS compares through `NaN` and yields `false`. -/
def svLt : SortValue → SortValue → Bool
  | .str a, .str b => decide (a < b)
  | .num a, .num b => decide (a < b)
  | _, _ => false

/-- `OrdersService.getSortValue`.  An absent rider contributes `''` and an
absent `deliveredAt` contributes `0`; an unknown column name falls through
to the `placedAt` timestamp. -/
def getSortValue (order : Order) (sortBy : String) : SortValue :=
  if sortBy = "id" then .str order.id
  else if sortBy = "bloodType" then .str order.bloodType
  else if sortBy = "quantity" then .num order.quantity
  else if sortBy = "bloodBank" then .str order.bloodBank.name
  else if sortBy = "status" then .str order.status
  else if sortBy = "rider" then .str ((order.rider.map Rider.name).getD "")
  else if sortBy = "placedAt" then .num order.placedAt
  else if sortBy = "deliveredAt" then .num (order.deliveredAt.getD 0)
  else .num order.placedAt

/-- The comparator `findAllWithFilters` passes to `Array.prototype.sort`:
active orders strictly first, then the requested column in the requested
direction (any direction other than `'asc'` behaves as `'desc'`). -/
def orderCompare (sortBy sortOrder : String) (a b : Order) : Int :=
  if isActive a && !isActive b then -1
  else if !isActive a && isActive b then 1
  else
    let aValue := getSortValue a sortBy
    let bValue := getSortValue b sortBy
    if svLt aValue bValue then (if sortOrder = "asc" then -1 else 1)
    else if svLt bValue aValue then (if sortOrder = "asc" then 1 else -1)
    else 0

/-- The non-strict order induced by the comparator; a JS stable sort under a
consistent comparator returns a list that is pairwise in this relation. -/
def orderLe (sortBy sortOrder : String) (a b : Order) : Bool :=
  decide (orderCompare sortBy sortOrder a b ≤ 0)

/-- The scope and filter stages of `findAllWithFilters`, in source order:
tenant scope, then start date, end date, blood types, statuses and blood
bank search, each applied only when the corresponding parameter is
truthy. -/
def filterOrders (orders : List Order) (params : OrderQueryParamsDto) : List Order :=
  let f1 := orders.filter (fun o => o.hospital.id == params.hospitalId)
  let f2 := match params.startDate with
    | some start => f1.filter (fun o => decide (start ≤ o.placedAt))
    | none => f1
  let f3 := match params.endDate with
    | some stop => f2.filter (fun o => decide (o.placedAt ≤ stop))
    | none => f2
  let f4 := match params.bloodTypes with
    | some s => if s = "" then f3 else
        f3.filter (fun o => (jsSplitComma s).contains o.bloodType)
    | none => f3
  let f5 := match params.statuses with
    | some s => if s = "" then f4 else
        f4.filter (fun o => (jsSplitComma s).contains o.status)
    | none => f4
  match params.bloodBank with
  | some s => if s = "" then f5 else
      f5.filter (fun o => jsIncludes (jsToLower o.bloodBank.name) (jsToLower s))
  | none => f5

/-- The filtered order list after the two-level sort — the sequence whose
slice the pagination stage returns.  `Array.prototype.sort` with a
consistent comparator is a stable sort; it is modelled by a stable
insertion sort under the comparator's non-strict order, whose output any
stable sort agrees with. -/
def filteredSorted (orders : List Order) (params : OrderQueryParamsDto) : List Order :=
  (filterOrders orders params).insertionSort
    (fun a b => orderLe (params.sortBy.getD "placedAt") (params.sortOrder.getD "desc") a b = true)

/-- The `pagination` object of `OrdersResponseDto`. -/
structure PaginationMeta where
  currentPage : Int
  pageSize : Int
  totalCount : Int
  totalPages : Int
deriving DecidableEq, Repr

/-- `OrdersResponseDto`. -/
structure OrdersResponseDto where
  data : List Order
  pagination : PaginationMeta
deriving DecidableEq, Repr

/-- `OrdersService.findAllWithFilters` over an explicit order store. -/
def findAllWithFilters (orders : List Order) (params : OrderQueryParamsDto) :
    OrdersResponseDto :=
  let page := params.page.getD 1
  let pageSize := params.pageSize.getD 25
  let sorted := filteredSorted orders params
  let totalCount : Int := sorted.length
  let startIndex := (page - 1) * pageSize
  { data := jsSlice sorted startIndex (startIndex + pageSize)
    pagination :=
      { currentPage := page
        pageSize := pageSize
        totalCount := totalCount
        totalPages := mathCeilDiv totalCount pageSize } }

/-- The payload `OrdersGateway.emitOrderUpdate` broadcasts, together with the
room (the order's hospital id) it is sent to. -/
structure OrderUpdateEvent where
  room : String
  id : String
  status : String
  rider : Option Rider
  updatedAt : Int
  deliveredAt : Option Int
deriving DecidableEq, Repr

/-- What one call to `OrdersService.updateStatus` produces: the new store,
the WebSocket events emitted, and the returned message. -/
structure UpdateStatusResult where
  store : List Order
  events : List OrderUpdateEvent
  message : String
deriving DecidableEq, Repr

/-- `OrdersService.updateStatus`; `now` is the value `new Date()` reads.  The
service spreads the found order, overrides `status` and `updatedAt`, writes
it back at the found index and emits one room event; when no order has the
requested id it leaves the store alone, emits nothing, and still returns the
success message. -/
def updateStatus (orders : List Order) (id : String) (status : String) (now : Int) :
    UpdateStatusResult :=
  match orders.findIdx? (fun o => o.id == id) with
  | some orderIndex =>
      let order := orders.getD orderIndex default
      let updatedOrder := { order with status := status, updatedAt := now }
      { store := orders.set orderIndex updatedOrder
        events := [{ room := order.hospital.id
                     id := updatedOrder.id
                     status := updatedOrder.status
                     rider := updatedOrder.rider
                     updatedAt := updatedOrder.updatedAt
                     deliveredAt := updatedOrder.deliveredAt }]
        message := "Order status updated successfully" }
  | none =>
      { store := orders
        events := []
        message := "Order status updated successfully" }

/-- Modelled from the spec: the `OrderQueryParamsDto` class
(`dto/order-query-params.dto.ts`) is not in the repository; the spec fixes
`pageSize ∈ {25, 50, 100}` and `page ≥ 1`, enforced by the controller's
`ValidationPipe` before the service runs.  An absent parameter falls back to
a valid default instead of failing validation. -/
def dtoValid (params : OrderQueryParamsDto) : Bool :=
  (match params.pageSize with
   | some s => [(25 : Int), 50, 100].contains s
   | none => true) &&
  (match params.page with
   | some p => decide (1 ≤ p)
   | none => true)

/-- `OrdersController.findAllWithFilters` (from the design document's
controller source): DTO validation, then the explicit
`startDate > endDate` rejection, then the service call. -/
def controllerFindAllWithFilters (orders : List Order) (params : OrderQueryParamsDto) :
    Except String OrdersResponseDto :=
  if dtoValid params then
    match params.startDate, params.endDate with
    | some s, some e =>
        if e < s then .error "startDate must be before or equal to endDate"
        else .ok (findAllWithFilters orders params)
    | _, _ => .ok (findAllWithFilters orders params)
  else .error "Invalid query parameters"

/-! ### Properties of the comparator -/

theorem svLt_asymm {x y : SortValue} (h : svLt x y = true) : svLt y x = false := by
  cases x <;> cases y <;> simp [svLt] at h ⊢ <;> exact le_of_lt h

theorem svLt_negtrans {x y z : SortValue} (hxy : x.isStr = y.isStr)
    (hyz : y.isStr = z.isStr) (h1 : svLt y x = false) (h2 : svLt z y = false) :
    svLt z x = false := by
  cases x <;> cases y <;> cases z <;>
    simp [SortValue.isStr] at hxy hyz <;>
    simp [svLt, not_lt] at h1 h2 ⊢ <;>
    exact le_trans h1 h2

theorem getSortValue_isStr_congr (a b : Order) (sortBy : String) :
    (getSortValue a sortBy).isStr = (getSortValue b sortBy).isStr := by
  unfold getSortValue
  split_ifs <;> rfl

theorem secCompare_le_zero (so : String) (x y : SortValue) :
    ((if svLt x y then (if so = "asc" then (-1 : Int) else 1)
      else if svLt y x then (if so = "asc" then (1 : Int) else -1) else 0) ≤ 0) ↔
      (if so = "asc" then svLt y x = false else svLt x y = false) := by
  by_cases hso : so = "asc" <;>
    rcases hab : svLt x y with _ | _
  · rcases hba : svLt y x with _ | _ <;> simp [hab, hba, hso]
  · have hba := svLt_asymm hab
    simp [hab, hba, hso]
  · rcases hba : svLt y x with _ | _ <;> simp [hab, hba, hso]
  · have hba := svLt_asymm hab
    simp [hab, hba, hso]

theorem orderCompare_le_zero (sortBy sortOrder : String) (a b : Order) :
    orderCompare sortBy sortOrder a b ≤ 0 ↔
      (isActive a = true ∧ isActive b = false) ∨
      (isActive a = isActive b ∧
        (if sortOrder = "asc"
         then svLt (getSortValue b sortBy) (getSortValue a sortBy) = false
         else svLt (getSortValue a sortBy) (getSortValue b sortBy) = false)) := by
  unfold orderCompare
  cases ha : isActive a <;> cases hb : isActive b
  · simpa [ha, hb] using
      secCompare_le_zero sortOrder (getSortValue a sortBy) (getSortValue b sortBy)
  · simp [ha, hb]
  · simp [ha, hb]
  · simpa [ha, hb] using
      secCompare_le_zero sortOrder (getSortValue a sortBy) (getSortValue b sortBy)

theorem orderLe_iff (sortBy sortOrder : String) (a b : Order) :
    orderLe sortBy sortOrder a b = true ↔
      (isActive a = true ∧ isActive b = false) ∨
      (isActive a = isActive b ∧
        (if sortOrder = "asc"
         then svLt (getSortValue b sortBy) (getSortValue a sortBy) = false
         else svLt (getSortValue a sortBy) (getSortValue b sortBy) = false)) := by
  rw [orderLe, decide_eq_true_eq]
  exact orderCompare_le_zero sortBy sortOrder a b

theorem orderLe_total (sortBy sortOrder : String) (a b : Order) :
    orderLe sortBy sortOrder a b = true ∨ orderLe sortBy sortOrder b a = true := by
  rw [orderLe_iff, orderLe_iff]
  cases ha : isActive a <;> cases hb : isActive b <;> try simp
  all_goals {
    by_cases hso : sortOrder = "asc" <;>
      rcases hab : svLt (getSortValue a sortBy) (getSortValue b sortBy) with _ | _ <;>
      first
        | (have hba := svLt_asymm hab; simp [hso, hab, hba])
        | simp [hso, hab] }

theorem orderLe_trans (sortBy sortOrder : String) (a b c : Order)
    (h1 : orderLe sortBy sortOrder a b = true)
    (h2 : orderLe sortBy sortOrder b c = true) :
    orderLe sortBy sortOrder a c = true := by
  rw [orderLe_iff] at h1 h2 ⊢
  rcases h1 with ⟨ha, hb⟩ | ⟨hab, hsec1⟩
  · rcases h2 with ⟨hb', hc⟩ | ⟨hbc, hsec2⟩
    · rw [hb] at hb'; cases hb'
    · exact Or.inl ⟨ha, hbc ▸ hb⟩
  · rcases h2 with ⟨hb', hc⟩ | ⟨hbc, hsec2⟩
    · exact Or.inl ⟨hab ▸ hb', hc⟩
    · refine Or.inr ⟨hab.trans hbc, ?_⟩
      by_cases hso : sortOrder = "asc" <;> simp only [hso, if_true, if_false] at hsec1 hsec2 ⊢
      · exact svLt_negtrans (getSortValue_isStr_congr a b sortBy)
          (getSortValue_isStr_congr b c sortBy) hsec1 hsec2
      · exact svLt_negtrans (getSortValue_isStr_congr c b sortBy)
          (getSortValue_isStr_congr b a sortBy) hsec2 hsec1

/-- The sorted stage really is pairwise ordered by the comparator's
non-strict order. -/
theorem filteredSorted_pairwise (orders : List Order) (params : OrderQueryParamsDto) :
    (filteredSorted orders params).Pairwise
      (fun a b =>
        orderLe (params.sortBy.getD "placedAt") (params.sortOrder.getD "desc") a b = true) := by
  haveI : IsTotal Order
      (fun a b =>
        orderLe (params.sortBy.getD "placedAt") (params.sortOrder.getD "desc") a b = true) :=
    ⟨fun a b => orderLe_total _ _ a b⟩
  haveI : IsTrans Order
      (fun a b =>
        orderLe (params.sortBy.getD "placedAt") (params.sortOrder.getD "desc") a b = true) :=
    ⟨fun a b c => orderLe_trans _ _ a b c⟩
  exact List.sorted_insertionSort _ _

theorem mem_filteredSorted {o : Order} {orders : List Order} {params : OrderQueryParamsDto} :
    o ∈ filteredSorted orders params ↔ o ∈ filterOrders orders params :=
  List.mem_insertionSort _

/-- Full characterisation of the filter stages: an order survives them
exactly when it was in the store, belongs to the requested hospital, and
passes every filter whose parameter is set and non-empty (an absent or
empty parameter constrains nothing). -/
theorem mem_filterOrders_iff {o : Order} {orders : List Order}
    {params : OrderQueryParamsDto} :
    o ∈ filterOrders orders params ↔
      o ∈ orders ∧ o.hospital.id = params.hospitalId ∧
      (∀ t, params.startDate = some t → t ≤ o.placedAt) ∧
      (∀ t, params.endDate = some t → o.placedAt ≤ t) ∧
      (∀ s, params.bloodTypes = some s → s ≠ "" →
        (jsSplitComma s).contains o.bloodType = true) ∧
      (∀ s, params.statuses = some s → s ≠ "" →
        (jsSplitComma s).contains o.status = true) ∧
      (∀ s, params.bloodBank = some s → s ≠ "" →
        jsIncludes (jsToLower o.bloodBank.name) (jsToLower s) = true) := by
  unfold filterOrders
  rcases params with ⟨hid, sd, ed, bt, st, bb, _, _, _, _⟩
  rcases sd with _ | sd <;> rcases ed with _ | ed <;>
    rcases bt with _ | bt <;> rcases st with _ | st <;> rcases bb with _ | bb <;>
    simp only [List.mem_filter, beq_iff_eq, decide_eq_true_eq, Option.some.injEq,
      forall_eq', reduceCtorEq, false_implies, implies_true, and_true, true_and]
  all_goals try split_ifs
  all_goals try simp_all [List.mem_filter]
  all_goals tauto

/-! ### Slicing -/

theorem findAllWithFilters_data_eq (orders : List Order) (params : OrderQueryParamsDto) :
    (findAllWithFilters orders params).data =
      jsSlice (filteredSorted orders params)
        ((params.page.getD 1 - 1) * params.pageSize.getD 25)
        ((params.page.getD 1 - 1) * params.pageSize.getD 25 + params.pageSize.getD 25) :=
  rfl

theorem jsSlice_sublist (l : List α) (a b : Int) : (jsSlice l a b).Sublist l :=
  (List.take_sublist _ _).trans (List.drop_sublist _ _)

theorem jsSlice_eq_drop_take (l : List α) (a b : Int) (ha : 0 ≤ a) (hb : 0 ≤ b) :
    jsSlice l a b = (l.drop a.toNat).take (min b.toNat l.length - a.toNat) := by
  unfold jsSlice
  have ha' : ¬ a < 0 := not_lt.mpr ha
  have hb' : ¬ b < 0 := not_lt.mpr hb
  simp only [ha', hb', if_false]
  rcases le_or_lt a (l.length : Int) with h | h
  · have e1 : (min a (l.length : Int)).toNat = a.toNat := by omega
    have e2 : (min b (l.length : Int) - min a (l.length : Int)).toNat =
        min b.toNat l.length - a.toNat := by omega
    rw [e1, e2]
  · have e1 : (min a (l.length : Int)).toNat = l.length := by omega
    have e3 : l.length ≤ a.toNat := by omega
    rw [e1, List.drop_length, List.drop_eq_nil_of_le e3, List.take_nil, List.take_nil]

theorem int_toNat_mul {a b : Int} (ha : 0 ≤ a) (hb : 0 ≤ b) :
    (a * b).toNat = a.toNat * b.toNat := by
  have h3 : (0 : Int) ≤ a * b := mul_nonneg ha hb
  have : (((a * b).toNat : Int)) = (((a.toNat * b.toNat : Nat) : Int)) := by
    rw [Int.toNat_of_nonneg h3]
    push_cast
    rw [Int.toNat_of_nonneg ha, Int.toNat_of_nonneg hb]
  exact_mod_cast this

/-! ### Concrete fixtures (used to instantiate the theorems) -/

/-- A hospital used by the concrete instances. -/
def hosp1 : Hospital :=
  { id := "HOSP-1", name := "General Hospital", location := "North" }

/-- A second hospital, to exercise tenant scoping. -/
def hosp2 : Hospital :=
  { id := "HOSP-2", name := "Other Hospital", location := "South" }

/-- A blood bank used by the concrete instances. -/
def bank1 : BloodBank :=
  { id := "BB-1", name := "Central Blood Bank", location := "East" }

/-- A pending order of hospital 1. -/
def ord1 : Order :=
  { id := "ORD-1", bloodType := "A+", quantity := 2, bloodBank := bank1,
    hospital := hosp1, status := "pending", rider := none, placedAt := 100,
    deliveredAt := none, confirmedAt := none, cancelledAt := none,
    createdAt := 100, updatedAt := 100 }

/-- A delivered order of hospital 1, placed earlier. -/
def ord2 : Order :=
  { ord1 with
    id := "ORD-2", status := "delivered", placedAt := 50,
    deliveredAt := some 80, bloodType := "O-" }

/-- An order of hospital 2 (must never leak into hospital 1's pages). -/
def ord3 : Order :=
  { ord1 with id := "ORD-3", hospital := hosp2 }

/-- The sample store. -/
def sampleStore : List Order :=
  [ord2, ord3, ord1]

/-- Query parameters with every filter dimension active. -/
def sampleParams : OrderQueryParamsDto :=
  { hospitalId := "HOSP-1", startDate := some 0, endDate := some 200,
    bloodTypes := some "A+,O-", statuses := some "pending,delivered",
    bloodBank := some "central" }

/-! ### The claims -/

/-- C1: every order in the page returned by `findAllWithFilters` has
`hospital.id` equal to the requested `hospitalId`; no order of any other
hospital ever appears in the result. -/
theorem tenant_isolation (orders : List Order) (params : OrderQueryParamsDto) :
    ∀ o ∈ (findAllWithFilters orders params).data, o.hospital.id = params.hospitalId := by
  intro o ho
  rw [findAllWithFilters_data_eq] at ho
  have h1 : o ∈ filteredSorted orders params := (jsSlice_sublist _ _ _).subset ho
  exact (mem_filterOrders_iff.mp (mem_filteredSorted.mp h1)).2.1

/-- Witness for C1 at a concrete store and query. -/
theorem tenant_isolation_witness : ord1.hospital.id = "HOSP-1" :=
  tenant_isolation sampleStore sampleParams ord1 (by decide)

/-- C2: in every page returned by `findAllWithFilters`, every active order
(status pending, confirmed or in_transit) precedes every completed order
(delivered or cancelled), for every choice of `sortBy` and `sortOrder`. -/
theorem active_before_completed (orders : List Order) (params : OrderQueryParamsDto) :
    (findAllWithFilters orders params).data.Pairwise
      (fun a b => isActive b = true → isActive a = true) := by
  have hs := filteredSorted_pairwise orders params
  have hsub : (findAllWithFilters orders params).data.Sublist
      (filteredSorted orders params) := by
    rw [findAllWithFilters_data_eq]
    exact jsSlice_sublist _ _ _
  refine (List.Pairwise.sublist hsub hs).imp ?_
  intro a b hle hb
  rcases (orderLe_iff _ _ a b).mp hle with ⟨ha, _⟩ | ⟨hab, _⟩
  · exact ha
  · rw [hab]
    exact hb

/-- Witness for C2 on the concrete store (a page mixing an active and a
completed order). -/
theorem active_before_completed_witness :
    (findAllWithFilters sampleStore sampleParams).data.Pairwise
      (fun a b => isActive b = true → isActive a = true) :=
  active_before_completed sampleStore sampleParams

/-- C3: every order in a returned page satisfies every active filter
dimension simultaneously — both inclusive date bounds, membership of the
selected blood-type set when non-empty, membership of the selected status
set when non-empty, and a case-insensitive substring match of the blood
bank search when non-empty; an absent or empty parameter imposes no
constraint. -/
theorem filter_conjunction (orders : List Order) (params : OrderQueryParamsDto)
    (o : Order) (h : o ∈ (findAllWithFilters orders params).data) :
    (∀ t, params.startDate = some t → t ≤ o.placedAt) ∧
    (∀ t, params.endDate = some t → o.placedAt ≤ t) ∧
    (∀ s, params.bloodTypes = some s → s ≠ "" →
      (jsSplitComma s).contains o.bloodType = true) ∧
    (∀ s, params.statuses = some s → s ≠ "" →
      (jsSplitComma s).contains o.status = true) ∧
    (∀ s, params.bloodBank = some s → s ≠ "" →
      jsIncludes (jsToLower o.bloodBank.name) (jsToLower s) = true) := by
  rw [findAllWithFilters_data_eq] at h
  have h1 := mem_filterOrders_iff.mp
    (mem_filteredSorted.mp ((jsSlice_sublist _ _ _).subset h))
  exact ⟨h1.2.2.1, h1.2.2.2.1, h1.2.2.2.2.1, h1.2.2.2.2.2.1, h1.2.2.2.2.2.2⟩

/-- Witness for C3 at a query with every filter dimension set. -/
theorem filter_conjunction_witness :
    (∀ t, sampleParams.startDate = some t → t ≤ ord1.placedAt) ∧
    (∀ t, sampleParams.endDate = some t → ord1.placedAt ≤ t) ∧
    (∀ s, sampleParams.bloodTypes = some s → s ≠ "" →
      (jsSplitComma s).contains ord1.bloodType = true) ∧
    (∀ s, sampleParams.statuses = some s → s ≠ "" →
      (jsSplitComma s).contains ord1.status = true) ∧
    (∀ s, sampleParams.bloodBank = some s → s ≠ "" →
      jsIncludes (jsToLower ord1.bloodBank.name) (jsToLower s) = true) :=
  filter_conjunction sampleStore sampleParams ord1 (by decide)

/-- C5: adjacent orders of a returned page that lie in the same partition
(both active or both completed) are monotonic in the requested column and
direction: ascending never decreases and any other direction never
increases the secondary sort key; the direction never touches the primary
active/completed partition. -/
theorem sort_monotonic (orders : List Order) (params : OrderQueryParamsDto) :
    (findAllWithFilters orders params).data.Chain'
      (fun a b => isActive a = isActive b →
        (if params.sortOrder.getD "desc" = "asc"
         then svLt (getSortValue b (params.sortBy.getD "placedAt"))
            (getSortValue a (params.sortBy.getD "placedAt")) = false
         else svLt (getSortValue a (params.sortBy.getD "placedAt"))
            (getSortValue b (params.sortBy.getD "placedAt")) = false)) := by
  have hs := filteredSorted_pairwise orders params
  have hsub : (findAllWithFilters orders params).data.Sublist
      (filteredSorted orders params) := by
    rw [findAllWithFilters_data_eq]
    exact jsSlice_sublist _ _ _
  refine ((List.Pairwise.sublist hsub hs).imp ?_).chain'
  intro a b hle hab
  rcases (orderLe_iff _ _ a b).mp hle with ⟨ha, hb⟩ | ⟨_, hsec⟩
  · rw [ha, hb] at hab
    cases hab
  · exact hsec

/-- Witness for C5 on the concrete store. -/
theorem sort_monotonic_witness :
    (findAllWithFilters sampleStore sampleParams).data.Chain'
      (fun a b => isActive a = isActive b →
        (if sampleParams.sortOrder.getD "desc" = "asc"
         then svLt (getSortValue b (sampleParams.sortBy.getD "placedAt"))
            (getSortValue a (sampleParams.sortBy.getD "placedAt")) = false
         else svLt (getSortValue a (sampleParams.sortBy.getD "placedAt"))
            (getSortValue b (sampleParams.sortBy.getD "placedAt")) = false)) :=
  sort_monotonic sampleStore sampleParams

theorem findAllWithFilters_pagination_eq (orders : List Order)
    (params : OrderQueryParamsDto) :
    (findAllWithFilters orders params).pagination =
      { currentPage := params.page.getD 1
        pageSize := params.pageSize.getD 25
        totalCount := ((filteredSorted orders params).length : Int)
        totalPages := mathCeilDiv ((filteredSorted orders params).length : Int)
          (params.pageSize.getD 25) } :=
  rfl

theorem jsSlice_nil (a b : Int) : jsSlice ([] : List α) a b = [] := by
  unfold jsSlice
  simp

/-- C4: for page `n ≥ 1` and a non-negative page size, the returned `data`
is exactly the slice `[(n-1)*size, min(n*size, L))` of the filtered-and-
sorted sequence of length `L`; a page beyond the range yields an empty
`data`, not an error, while `totalCount` and `totalPages` still reflect the
true filtered count. -/
theorem pagination_slice (orders : List Order) (params : OrderQueryParamsDto)
    (hpage : 1 ≤ params.page.getD 1) (hsize : 0 ≤ params.pageSize.getD 25) :
    (findAllWithFilters orders params).data =
      ((filteredSorted orders params).drop
          (((params.page.getD 1).toNat - 1) * (params.pageSize.getD 25).toNat)).take
        (min ((params.page.getD 1).toNat * (params.pageSize.getD 25).toNat)
            (filteredSorted orders params).length
          - ((params.page.getD 1).toNat - 1) * (params.pageSize.getD 25).toNat) ∧
    (findAllWithFilters orders params).pagination.totalCount =
      ((filteredSorted orders params).length : Int) ∧
    (findAllWithFilters orders params).pagination.totalPages =
      mathCeilDiv ((filteredSorted orders params).length : Int)
        (params.pageSize.getD 25) ∧
    ((filteredSorted orders params).length ≤
        ((params.page.getD 1).toNat - 1) * (params.pageSize.getD 25).toNat →
      (findAllWithFilters orders params).data = []) := by
  have hp1 : (0 : Int) ≤ params.page.getD 1 - 1 := by omega
  have hstart : (0 : Int) ≤ (params.page.getD 1 - 1) * params.pageSize.getD 25 :=
    mul_nonneg hp1 hsize
  have hstop : (0 : Int) ≤
      (params.page.getD 1 - 1) * params.pageSize.getD 25 + params.pageSize.getD 25 := by
    omega
  have e1 : ((params.page.getD 1 - 1) * params.pageSize.getD 25).toNat =
      ((params.page.getD 1).toNat - 1) * (params.pageSize.getD 25).toNat := by
    rw [int_toNat_mul hp1 hsize]
    congr 1
    omega
  have e2 : ((params.page.getD 1 - 1) * params.pageSize.getD 25 +
      params.pageSize.getD 25).toNat =
      (params.page.getD 1).toNat * (params.pageSize.getD 25).toNat := by
    have h : (params.page.getD 1 - 1) * params.pageSize.getD 25 +
        params.pageSize.getD 25 = params.page.getD 1 * params.pageSize.getD 25 := by
      ring
    rw [h, int_toNat_mul (by omega) hsize]
  have hdata : (findAllWithFilters orders params).data =
      ((filteredSorted orders params).drop
          (((params.page.getD 1).toNat - 1) * (params.pageSize.getD 25).toNat)).take
        (min ((params.page.getD 1).toNat * (params.pageSize.getD 25).toNat)
            (filteredSorted orders params).length
          - ((params.page.getD 1).toNat - 1) * (params.pageSize.getD 25).toNat) := by
    rw [findAllWithFilters_data_eq, jsSlice_eq_drop_take _ _ _ hstart hstop, e1, e2]
  refine ⟨hdata, rfl, rfl, fun hle => ?_⟩
  rw [hdata]
  have h0 : min ((params.page.getD 1).toNat * (params.pageSize.getD 25).toNat)
      (filteredSorted orders params).length
      - ((params.page.getD 1).toNat - 1) * (params.pageSize.getD 25).toNat = 0 := by
    omega
  rw [h0, List.take_zero]

/-- Witness for C4: the sample query at page 1, size 25. -/
theorem pagination_slice_witness :
    (findAllWithFilters sampleStore sampleParams).data =
      ((filteredSorted sampleStore sampleParams).drop
          (((sampleParams.page.getD 1).toNat - 1) * (sampleParams.pageSize.getD 25).toNat)).take
        (min ((sampleParams.page.getD 1).toNat * (sampleParams.pageSize.getD 25).toNat)
            (filteredSorted sampleStore sampleParams).length
          - ((sampleParams.page.getD 1).toNat - 1) * (sampleParams.pageSize.getD 25).toNat) ∧
    (findAllWithFilters sampleStore sampleParams).pagination.totalCount =
      ((filteredSorted sampleStore sampleParams).length : Int) ∧
    (findAllWithFilters sampleStore sampleParams).pagination.totalPages =
      mathCeilDiv ((filteredSorted sampleStore sampleParams).length : Int)
        (sampleParams.pageSize.getD 25) ∧
    ((filteredSorted sampleStore sampleParams).length ≤
        ((sampleParams.page.getD 1).toNat - 1) * (sampleParams.pageSize.getD 25).toNat →
      (findAllWithFilters sampleStore sampleParams).data = []) :=
  pagination_slice sampleStore sampleParams (by decide) (by decide)

theorem mathCeilDiv_eq_ceil (a b : Int) (hb : 0 < b) :
    mathCeilDiv a b = Int.ceil ((a : ℚ) / (b : ℚ)) := by
  unfold mathCeilDiv
  rw [Int.fdiv_eq_ediv _ (le_of_lt hb)]
  have hdm := Int.ediv_add_emod (-a) b
  have hnn := Int.emod_nonneg (-a) (ne_of_gt hb)
  have hlt := Int.emod_lt_of_pos (-a) hb
  have key1 : b * ((-a) / b) ≤ -a := by omega
  have key2 : -a < b * ((-a) / b) + b := by omega
  have hbQ : (0 : ℚ) < (b : ℚ) := by exact_mod_cast hb
  symm
  rw [Int.ceil_eq_iff]
  constructor
  · rw [lt_div_iff₀ hbQ]
    have hInt : (-((-a) / b) - 1) * b < a := by
      have hr : (-((-a) / b) - 1) * b = -(b * ((-a) / b) + b) := by ring
      linarith [key2, hr.le, hr.ge]
    push_cast
    exact_mod_cast hInt
  · rw [div_le_iff₀ hbQ]
    have hInt : a ≤ (-((-a) / b)) * b := by
      have hr : (-((-a) / b)) * b = -(b * ((-a) / b)) := by ring
      linarith [key1, hr.le, hr.ge]
    push_cast
    exact_mod_cast hInt

/-- C9: the pagination metadata satisfies
`totalPages = ceil(totalCount / pageSize)`; when `totalCount` is zero the
result has `totalPages = 0` and an empty `data` array. -/
theorem totalPages_ceil (orders : List Order) (params : OrderQueryParamsDto)
    (h : 0 < params.pageSize.getD 25) :
    (findAllWithFilters orders params).pagination.totalPages =
      Int.ceil (((findAllWithFilters orders params).pagination.totalCount : ℚ) /
        ((findAllWithFilters orders params).pagination.pageSize : ℚ)) ∧
    ((findAllWithFilters orders params).pagination.totalCount = 0 →
      (findAllWithFilters orders params).pagination.totalPages = 0 ∧
      (findAllWithFilters orders params).data = []) := by
  rw [findAllWithFilters_pagination_eq]
  dsimp only
  refine ⟨mathCeilDiv_eq_ceil _ _ h, fun h0 => ?_⟩
  have hL : (filteredSorted orders params).length = 0 := by exact_mod_cast h0
  have hnil : filteredSorted orders params = [] := List.length_eq_zero.mp hL
  constructor
  · rw [mathCeilDiv_eq_ceil _ _ h, hL]
    simp
  · rw [findAllWithFilters_data_eq, hnil, jsSlice_nil]

/-- Witness for C9: an empty store has `totalCount = 0`, `totalPages = 0`
and empty `data`. -/
theorem totalPages_ceil_witness :
    (findAllWithFilters [] sampleParams).pagination.totalPages =
      Int.ceil (((findAllWithFilters [] sampleParams).pagination.totalCount : ℚ) /
        ((findAllWithFilters [] sampleParams).pagination.pageSize : ℚ)) ∧
    ((findAllWithFilters [] sampleParams).pagination.totalCount = 0 →
      (findAllWithFilters [] sampleParams).pagination.totalPages = 0 ∧
      (findAllWithFilters [] sampleParams).data = []) :=
  totalPages_ceil [] sampleParams (by decide)

/-- A syntactically valid query that names a sort column the service does
not know. -/
def paramsUnknownSort : OrderQueryParamsDto :=
  { hospitalId := "HOSP-1", sortBy := some "notAColumn" }

/-- A query whose page size is outside {25, 50, 100}. -/
def paramsBadPageSize : OrderQueryParamsDto :=
  { hospitalId := "HOSP-1", pageSize := some 30 }

/-- The successful result of a controller call, when there is one. -/
def controllerOk : Except String OrdersResponseDto → Option OrdersResponseDto
  | .ok r => some r
  | .error _ => none

/-- C6 counterexample: a request with an unknown `sortBy` column is NOT
rejected — it passes validation and a full page is computed (the service's
`getSortValue` falls through to the `placedAt` key), refuting the claim
that an unknown sort column yields a validation error before filtering. -/
theorem unknown_sortBy_not_rejected :
    paramsUnknownSort.sortBy = some "notAColumn" ∧
    dtoValid paramsUnknownSort = true ∧
    controllerOk (controllerFindAllWithFilters sampleStore paramsUnknownSort) =
      some (findAllWithFilters sampleStore paramsUnknownSort) ∧
    (findAllWithFilters sampleStore paramsUnknownSort).data ≠ [] := by
  decide

/-- C6 (amended): a request with an invalid `pageSize` (not in
{25, 50, 100}), or `page < 1`, or `startDate > endDate`, is rejected by the
controller with a validation error before any filtering runs; an unknown
`sortBy` column is not rejected and instead falls back to the default
`placedAt` sort key. -/
theorem validation_rejects (orders : List Order) (params : OrderQueryParamsDto)
    (h : dtoValid params = false ∨
      ∃ s e, params.startDate = some s ∧ params.endDate = some e ∧ e < s) :
    ∃ msg, controllerFindAllWithFilters orders params = .error msg := by
  unfold controllerFindAllWithFilters
  rcases h with h | ⟨s, e, hs, he, hlt⟩
  · rw [h]
    exact ⟨_, rfl⟩
  · rcases hv : dtoValid params
    · exact ⟨_, rfl⟩
    · rw [hs, he]
      simp only [hlt, if_pos, if_true]
      exact ⟨_, rfl⟩

/-- Witness for C6 (amended): page size 30 is rejected. -/
theorem validation_rejects_witness :
    ∃ msg, controllerFindAllWithFilters sampleStore paramsBadPageSize = .error msg :=
  validation_rejects sampleStore paramsBadPageSize (Or.inl (by decide))

/-- C7 (code-bug exhibit): `updateStatus` transitions ORD-1 from `pending`
to `delivered` but leaves `deliveredAt` unset — it writes only `status` and
`updatedAt`, never the per-status timestamp the data model requires. -/
theorem updateStatus_leaves_deliveredAt_unset :
    ord1.status = "pending" ∧ ord1.deliveredAt = none ∧
    (updateStatus [ord1] "ORD-1" "delivered" 500).store =
      [{ ord1 with status := "delivered", updatedAt := 500 }] ∧
    ({ ord1 with status := "delivered", updatedAt := 500 } : Order).deliveredAt = none := by
  decide

/-- A completed order whose `deliveredAt` is a pre-epoch timestamp. -/
def ordPreEpoch : Order :=
  { ord1 with
    id := "ORD-8S", status := "delivered", deliveredAt := some (-1) }

/-- A completed order whose `deliveredAt` is absent. -/
def ordNoDelivery : Order :=
  { ord1 with
    id := "ORD-8A", status := "delivered", deliveredAt := none }

/-- A completed order whose `deliveredAt` is a post-epoch timestamp. -/
def ordPostEpoch : Order :=
  { ord1 with
    id := "ORD-8P", status := "delivered", deliveredAt := some 70 }

/-- Query sorting ascending by the `deliveredAt` column. -/
def paramsDeliveredAsc : OrderQueryParamsDto :=
  { hospitalId := "HOSP-1", sortBy := some "deliveredAt", sortOrder := some "asc" }

/-- C8 counterexample: sorting ascending by `deliveredAt`, an order whose
`deliveredAt` is set to a pre-epoch timestamp (-1 ms) is placed BEFORE a
same-partition order whose `deliveredAt` is absent: the absent value
compares as `0`, not as the lowest possible value of the column. -/
theorem absent_deliveredAt_not_lowest :
    paramsDeliveredAsc.sortBy = some "deliveredAt" ∧
    paramsDeliveredAsc.sortOrder = some "asc" ∧
    isActive ordPreEpoch = isActive ordNoDelivery ∧
    ordPreEpoch.deliveredAt = some (-1) ∧ ordNoDelivery.deliveredAt = none ∧
    (findAllWithFilters [ordNoDelivery, ordPreEpoch] paramsDeliveredAsc).data =
      [ordPreEpoch, ordNoDelivery] := by
  decide

/-- C8 (amended): an absent `deliveredAt` compares as the epoch timestamp 0;
in a page sorted ascending by `deliveredAt`, within a same-partition pair an
order whose `deliveredAt` is set to a post-epoch (positive) timestamp never
precedes one whose `deliveredAt` is absent. -/
theorem absent_deliveredAt_first (orders : List Order) (params : OrderQueryParamsDto)
    (h1 : params.sortBy = some "deliveredAt") (h2 : params.sortOrder = some "asc") :
    (findAllWithFilters orders params).data.Pairwise
      (fun a b => isActive a = isActive b →
        ∀ t, a.deliveredAt = some t → 0 < t → b.deliveredAt ≠ none) := by
  have hs := filteredSorted_pairwise orders params
  have hsub : (findAllWithFilters orders params).data.Sublist
      (filteredSorted orders params) := by
    rw [findAllWithFilters_data_eq]
    exact jsSlice_sublist _ _ _
  refine (List.Pairwise.sublist hsub hs).imp ?_
  intro a b hle hab t ht hpos hbnone
  rw [h1, h2] at hle
  simp only [Option.getD_some] at hle
  rcases (orderLe_iff _ _ a b).mp hle with ⟨ha, hb⟩ | ⟨_, hsec⟩
  · rw [ha, hb] at hab
    cases hab
  · have ga : getSortValue a "deliveredAt" = .num t := by
      simp [getSortValue, ht]
    have gb : getSortValue b "deliveredAt" = .num 0 := by
      simp [getSortValue, hbnone]
    rw [if_pos rfl, ga, gb] at hsec
    simp only [svLt, decide_eq_false_iff_not, not_lt] at hsec
    omega

/-- Witness for C8 (amended) on a concrete two-order page. -/
theorem absent_deliveredAt_first_witness :
    (findAllWithFilters [ordPostEpoch, ordNoDelivery] paramsDeliveredAsc).data.Pairwise
      (fun a b => isActive a = isActive b →
        ∀ t, a.deliveredAt = some t → 0 < t → b.deliveredAt ≠ none) :=
  absent_deliveredAt_first [ordPostEpoch, ordNoDelivery] paramsDeliveredAsc rfl rfl

/-- C10: `updateStatus` with an id absent from the store leaves the store
unchanged, emits no WebSocket event, and still returns the success message;
with a present id it changes only the first matching order's `status` and
`updatedAt` fields and leaves every other order untouched. -/
theorem updateStatus_spec (orders : List Order) (oid ns : String) (now : Int) :
    (orders.findIdx? (fun o => o.id == oid) = none →
      updateStatus orders oid ns now =
        { store := orders, events := [],
          message := "Order status updated successfully" }) ∧
    (∀ k, orders.findIdx? (fun o => o.id == oid) = some k →
      (updateStatus orders oid ns now).message = "Order status updated successfully" ∧
      (updateStatus orders oid ns now).store =
        orders.set k { orders.getD k default with status := ns, updatedAt := now } ∧
      (∀ j, j ≠ k →
        (updateStatus orders oid ns now).store.getD j default =
          orders.getD j default) ∧
      (updateStatus orders oid ns now).store.getD k default =
        { orders.getD k default with status := ns, updatedAt := now }) := by
  constructor
  · intro h
    unfold updateStatus
    rw [h]
  · intro k hk
    have hklt : k < orders.length := (List.findIdx?_eq_some_iff_findIdx_eq.mp hk).1
    unfold updateStatus
    rw [hk]
    refine ⟨rfl, rfl, fun j hj => ?_, ?_⟩
    · simp only [List.getD_eq_getElem?_getD, List.getElem?_set_ne (Ne.symm hj)]
    · simp only [List.getD_eq_getElem?_getD, List.getElem?_set_self hklt, Option.getD_some]

/-- Witness for C10: both the missing-id branch and the present-id branch
at a concrete store. -/
theorem updateStatus_spec_witness :
    (updateStatus [ord1] "NO-SUCH-ID" "delivered" 900 =
      { store := [ord1], events := [],
        message := "Order status updated successfully" }) ∧
    (updateStatus [ord1] "ORD-1" "confirmed" 901).store.getD 0 default =
      { [ord1].getD 0 default with status := "confirmed", updatedAt := 901 } :=
  ⟨(updateStatus_spec [ord1] "NO-SUCH-ID" "delivered" 900).1 (by decide),
   ((updateStatus_spec [ord1] "ORD-1" "confirmed" 901).2 0 (by decide)).2.2.2⟩

end HealthChain
